import Mathlib

/-!
Verification development for the SFTPMail repository (SFTP.py, PGP.py).

The transfer queue manager moves files between four flat local queue
directories (Inbox, Outbox, Sent, Awaiting) and a remote SFTP endpoint.
We shallow-embed the file-system effects of the Python code:

* A file is identified by its directory and its name (the four queue
  directories are flat, and `os.path.join` simply concatenates the
  directory, a separator and the name).  The local file system is the
  list of existing files; creation is `List.insert`, deletion is
  `List.erase`, and `os.rename` is modelled with POSIX semantics
  (the destination is silently replaced), i.e. erase-then-insert.
* External effects (the SFTP `put`/`get` calls, the gnupg encrypt and
  decrypt calls, the interactive `input()` prompt) are injected as
  oracles: a `none` answer means the call succeeded, `some e` means the
  call raised an exception whose text is `e`.
* Python's `str.split(".")`/`".".join` pair used by
  `SFTP._non_conflicting_name` is embedded as a structural recursion on
  the character list of the file NAME.  The Python code splits the whole
  joined path, but every directory the helper is called with ("Inbox",
  "Outbox", "Sent", "Awaiting") contains no dot, so the first component
  of the path split is the directory, the separator and the first
  component of the name split, and the two computations insert the
  suffix at the same place.
* The unbounded `while` loop of `_non_conflicting_name` terminates at
  the smallest positive counter whose candidate name is unused; we run
  it with fuel `fs.length + 1`, which reaches every counter value the
  loop can need whenever some candidate among the first `fs.length + 1`
  is free (in a real directory listing this is always the case).
-/

namespace SFTPMail

/-- A file in one of the flat local directories: `dir` is the directory
part of the path (`""` for a file directly in the working directory) and
`name` the file name, so the Python path string is `dir ++ "/" ++ name`. -/
structure QFile where
  dir : String
  name : String
deriving DecidableEq

/-- The local file system: the list of files that exist. -/
abbrev FS := List QFile

/-- Effect of `open(path, "w")` / `shutil.copy2(_, path)`: the file at
`path` exists afterwards. -/
def createFile (fs : FS) (p : QFile) : FS := fs.insert p

/-- Effect of `os.remove(path)`. -/
def removeFile (fs : FS) (p : QFile) : FS := fs.erase p

/-- Effect of `os.rename(src, dst)` with POSIX overwrite semantics:
`src` no longer exists, `dst` exists. -/
def renameFile (fs : FS) (src dst : QFile) : FS := (fs.erase src).insert dst

/-- Effect of `os.listdir(d)`: the names of the files in directory `d`. -/
def listdir (fs : FS) (d : String) : List String :=
  fs.filterMap (fun p => if p.dir = d then some p.name else none)

/-- Python `file_path.split(".")` on the character list: split at every
`'.'`, keeping empty pieces (`"a..b" ↦ ["a", "", "b"]`). -/
def splitDots (acc : List Char) : List Char → List (List Char)
  | [] => [acc.reverse]
  | c :: cs => if c = '.' then acc.reverse :: splitDots [] cs else splitDots (c :: acc) cs

/-- Python `".".join(parts)` on character lists. -/
def joinDots : List (List Char) → List Char
  | [] => []
  | [p] => p
  | p :: ps => p ++ '.' :: joinDots ps

/-- One candidate of `SFTP._non_conflicting_name`: append `"_" ++ str k`
to the part of the file name before its first dot
(`file_path_split[0] = file_path_split[0] + "_" + str(iterator)`). -/
def addSuffix (file_name : String) (k : Nat) : String :=
  match splitDots [] file_name.data with
  | [] => file_name
  | h :: t => String.mk (joinDots ((h ++ ('_' :: (Nat.repr k).data)) :: t))

/-- The `while os.path.exists` loop of `SFTP._non_conflicting_name`:
try the counter values `k, k+1, ...` until a candidate name does not
exist; `fuel` bounds the search (see the module comment). -/
def findFree (fs : FS) (d file_name : String) : Nat → Nat → QFile
  | _, 0 => ⟨d, file_name⟩
  | k, fuel + 1 =>
    let cand : QFile := ⟨d, addSuffix file_name k⟩
    if cand ∈ fs then findFree fs d file_name (k + 1) fuel else cand

/-- `SFTP._non_conflicting_name(destination_path, file_name)`: the
candidate itself if it does not exist, otherwise the first suffixed
candidate (counter starting at 1) that does not exist. -/
def non_conflicting_name (fs : FS) (destination_path file_name : String) : QFile :=
  if (⟨destination_path, file_name⟩ : QFile) ∈ fs then
    findFree fs destination_path file_name 1 (fs.length + 1)
  else ⟨destination_path, file_name⟩

/-- The Python path string `dir + sep + name` of a file (separator
written `/`; the choice of separator character is immaterial). -/
def pathStr (p : QFile) : String := p.dir ++ "/" ++ p.name

/-- Python `s[0]` on a nonempty string: its first character as a
one-character string (`""` for the empty string, which cannot occur for
a joined path). -/
def strHead (s : String) : String :=
  match s.data with
  | [] => ""
  | c :: _ => String.mk [c]

/-- Message of `SFTP._PGP` when `self.pgp == None`. -/
def pgpMissingMsg : String :=
  "The SFTP obj must have an assigned pgp value. Can be assigned during initialization."

/-- Message of `send_to` when the encryption step raises `e`. -/
def encFailMsg (e : String) : String := "Encryption failed, error code was: " ++ e

/-- Message of `send_to` when the upload of `file_name` raises `e`. -/
def putFailMsg (file_name e : String) : String :=
  "Failed to put file " ++ file_name ++ " on the server. The error was " ++ e

/-- File-system effect of `self.cryption_methods[mode](self, src, "encrypt")`
for a single source file `src` (in `send_to` this is the Awaiting copy).
Both `_PGP` (mode `"PGP"`) and `_no_cryption` (mode `"None"`) write their
output to `_non_conflicting_name("Outbox", basename(src))`; `_PGP` first
raises if no PGP object is configured.  `fail` injects a failure of the
underlying gnupg call or `shutil.copy2` (modelled as raising before the
output file is created).  On success, returns the new file system and
the output path. -/
def cryptionEncryptOne (mode : String) (pgpPresent : Bool) (fail : Option String)
    (fs : FS) (src : QFile) : Except String (FS × QFile) :=
  if mode = "PGP" then
    if pgpPresent then
      match fail with
      | some e => .error e
      | none =>
        let out := non_conflicting_name fs "Outbox" src.name
        .ok (createFile fs out, out)
    else .error pgpMissingMsg
  else if mode = "None" then
    match fail with
    | some e => .error e
    | none =>
      let out := non_conflicting_name fs "Outbox" src.name
      .ok (createFile fs out, out)
  else .error ("KeyError: " ++ mode)

/-- Failure oracles for one `send_to` call, keyed by the original
Outbox file name: `encrypt` injects a failure of the encryption step,
`put` a failure of `sftp.put`; `none` means the call succeeds. -/
structure SendOracles where
  encrypt : String → Option String
  put : String → Option String

/-- The body of the `for file_name in file_names` loop of
`SFTP.send_to`, lines 149-186: move the Outbox file to a non-conflicting
Awaiting name, run the encryption step, upload, and on success remove
the transformed artifact and move the Awaiting copy to Sent; on failure
move the Awaiting copy back to the original Outbox path first.  In the
upload-failure branch the code guards the artifact cleanup with
`file_to_send_path[0]`, the FIRST CHARACTER of the artifact path string
(the variable holds a string at that point), compared with
`awaiting_path` and tested with `os.path.isfile`; we embed that
character test literally (a one-character relative path names a file
directly in the working directory, `dir = ""`).  Returns the new file
system and the raised error, if any. -/
def sendOne (mode : String) (pgpPresent : Bool) (orc : SendOracles)
    (fs : FS) (file_name : String) : FS × Option String :=
  let outbox_path : QFile := ⟨"Outbox", file_name⟩
  let awaiting_path := non_conflicting_name fs "Awaiting" file_name
  let fs1 := renameFile fs outbox_path awaiting_path
  match cryptionEncryptOne mode pgpPresent (orc.encrypt file_name) fs1 awaiting_path with
  | .error e => (renameFile fs1 awaiting_path outbox_path, some (encFailMsg e))
  | .ok (fs2, file_to_send) =>
    match orc.put file_name with
    | some e =>
      let c := strHead (pathStr file_to_send)
      let fs3 := if c ≠ pathStr awaiting_path ∧ (⟨"", c⟩ : QFile) ∈ fs2 then
          removeFile fs2 file_to_send
        else fs2
      (renameFile fs3 awaiting_path outbox_path, some (putFailMsg file_name e))
    | none =>
      let fs3 := if file_to_send ∈ fs2 then removeFile fs2 file_to_send else fs2
      let sent_path := non_conflicting_name fs3 "Sent" file_name
      (renameFile fs3 awaiting_path sent_path, none)

/-- The `for` loop of `send_to` over the Outbox snapshot: an exception
raised for one file propagates, so the remaining names are not
processed. -/
def sendLoop (mode : String) (pgpPresent : Bool) (orc : SendOracles) :
    FS → List String → FS × Option String
  | fs, [] => (fs, none)
  | fs, n :: rest =>
    match sendOne mode pgpPresent orc fs n with
    | (fs', none) => sendLoop mode pgpPresent orc fs' rest
    | (fs', some e) => (fs', some e)

/-- `SFTP.send_to(remote_dst, cryption_method)`: snapshot the Outbox
listing once, then process each file. -/
def send_to (mode : String) (pgpPresent : Bool) (orc : SendOracles) (fs : FS) :
    FS × Option String :=
  sendLoop mode pgpPresent orc fs (listdir fs "Outbox")

/-- State of one `receive_from` call after the download loop: the local
file system, the names still present on the remote path, the local
Awaiting paths fetched so far, and the raised error, if any. -/
structure RecvState where
  fs : FS
  remote : List String
  fetched : List QFile
  error : Option String
deriving DecidableEq

/-- The `for file_name in remote_files` loop of `SFTP.receive_from`,
lines 204-210: for each listed name, pick a non-conflicting Awaiting
name, `sftp.get` into it (oracle `getFail`; on failure the exception
propagates and the loop stops, the local file not having been written),
record the fetched path, then `sftp.remove` the remote copy. -/
def receiveLoop (getFail : String → Option String) :
    FS → List String → List QFile → List String → RecvState
  | fs, remote, fetched, [] => ⟨fs, remote, fetched, none⟩
  | fs, remote, fetched, n :: rest =>
    let local_path := non_conflicting_name fs "Awaiting" n
    match getFail n with
    | some e => ⟨fs, remote, fetched, some e⟩
    | none =>
      receiveLoop getFail (createFile fs local_path) (remote.erase n)
        (fetched ++ [local_path]) rest

/-- File-system effect of `self.cryption_methods[mode](self, srcs,
"decrypt")` on a list of fetched Awaiting files: the output paths are
all computed first (a list comprehension over the unchanged file
system), then each file is written into Inbox.  `_PGP` raises first if
no PGP object is configured; `fail` injects a failure of the underlying
gnupg call or `shutil.copy2`. -/
def cryptionDecryptList (mode : String) (pgpPresent : Bool) (fail : Option String)
    (fs : FS) (srcs : List QFile) : Except String (FS × List QFile) :=
  if mode = "PGP" then
    if pgpPresent then
      match fail with
      | some e => .error e
      | none =>
        let outs := srcs.map (fun s => non_conflicting_name fs "Inbox" s.name)
        .ok (outs.foldl createFile fs, outs)
    else .error pgpMissingMsg
  else if mode = "None" then
    match fail with
    | some e => .error e
    | none =>
      let outs := srcs.map (fun s => non_conflicting_name fs "Inbox" s.name)
      .ok (outs.foldl createFile fs, outs)
  else .error ("KeyError: " ++ mode)

/-- Result of a whole `receive_from` call: final local file system,
remaining remote names, the returned list of Inbox paths (on success),
and the raised error, if any. -/
structure RecvResult where
  fs : FS
  remote : List String
  returned : Option (List QFile)
  error : Option String

/-- `SFTP.receive_from(remote_path, cryption_method)`: list the remote
names once, run the download loop, then on success decrypt/copy the
whole batch into Inbox and delete the fetched Awaiting copies. -/
def receive_from (mode : String) (pgpPresent : Bool) (decFail : Option String)
    (getFail : String → Option String) (fs : FS) (remote : List String) : RecvResult :=
  let r := receiveLoop getFail fs remote [] remote
  match r.error with
  | some e => ⟨r.fs, r.remote, none, some e⟩
  | none =>
    match cryptionDecryptList mode pgpPresent decFail r.fs r.fetched with
    | .error e => ⟨r.fs, r.remote, none, some e⟩
    | .ok (fs2, outs) => ⟨r.fetched.foldl removeFile fs2, r.remote, some outs, none⟩

/-- `SFTP.required_paths`. -/
def required_paths : List String := ["Inbox", "Outbox", "Sent", "Awaiting"]

/-- Outcome of `SFTP._check_if_setup`: the working-directory listing
after the call, whether an exception was raised (the method raises
none), and the value it returns (`some true` for Python `True`, `none`
for Python `None`). -/
structure SetupOutcome where
  cwd : List String
  raised : Bool
  result : Option Bool
deriving DecidableEq

/-- `SFTP._check_if_setup`, lines 267-284, together with the helpers
`_prompt_new_setup`, `_find_missing_paths` and `_setup` it calls: check
which required paths are in the working-directory listing; if all are
present return `True`; otherwise prompt the user (oracle
`user_says_yes` models the interactive `input()` answer), return `None`
on decline, and on accept create the missing folders (those whose name
contains no dot) and return `True`.  No branch raises. -/
def check_if_setup (files_in_dir : List String) (user_says_yes : Bool) : SetupOutcome :=
  let paths_in_folder := required_paths.map (fun p => decide (p ∈ files_in_dir))
  if paths_in_folder.all id then ⟨files_in_dir, false, some true⟩
  else if user_says_yes then
    let paths_missing :=
      (required_paths.zip paths_in_folder).filterMap
        (fun x => if x.2 then none else some x.1)
    let folders_missing := paths_missing.filter (fun f => '.' ∉ f.data)
    ⟨files_in_dir ++ folders_missing, false, some true⟩
  else ⟨files_in_dir, false, none⟩

/-- `SFTP._connection_properties_check`, lines 51-69, on the key set of
the `connection_properties` dict: raise `ValueError` if `"host"` is
missing, otherwise ensure a `"cnopts"` key (the `CnOpts` instantiation
is external and modelled as succeeding). -/
def connection_properties_check (keys : List String) : Except String (List String) :=
  if "host" ∉ keys then .error "Excepted a value for host in connection_properties"
  else if "cnopts" ∈ keys then .ok keys
  else .ok ("cnopts" :: keys)

/-- `PGP.message_beginning_indicator`. -/
def message_beginning_indicator : String := "-----BEGIN PGP MESSAGE-----"

/-- Python `f.readlines()` on the file content `s`: split after every
`'\n'`, keeping the newline at the end of each line; a last piece with
no trailing newline is kept, an empty one is not. -/
def pyReadlines (acc : List Char) : List Char → List String
  | [] => if acc = [] then [] else [String.mk acc.reverse]
  | c :: cs =>
    if c = '\n' then String.mk (acc.reverse ++ ['\n']) :: pyReadlines [] cs
    else pyReadlines (c :: acc) cs

/-- `PGP.decrypt`, lines 122-149, restricted to one file, the file
modelled by its text content; `gpg` is the external
`GPG.decrypt_file`-plus-`ok`-check (an `.error` answer is a failed
decryption).  If no line of the file equals
`message_beginning_indicator` exactly, the content is returned verbatim
without calling `gpg`. -/
def pgp_decrypt_one (gpg : String → Except String String) (content : String) :
    Except String String :=
  if message_beginning_indicator ∈ pyReadlines [] content.data then gpg content
  else .ok content

/-- `PGP.decrypt` over the whole file list: contents are processed in
order, a failure aborting the loop. -/
def pgp_decrypt (gpg : String → Except String String) :
    List String → Except String (List String)
  | [] => .ok []
  | c :: cs =>
    match pgp_decrypt_one gpg c with
    | .error e => .error e
    | .ok r =>
      match pgp_decrypt gpg cs with
      | .error e => .error e
      | .ok rs => .ok (r :: rs)

/-- Modelled from the spec's words for the non-conflicting name
derivation, for comparison with the source's `addSuffix`: "insert
`_<counter>` before the last `.`-delimited extension segment". -/
def addSuffixSpecLast (file_name : String) (k : Nat) : String :=
  match (splitDots [] file_name.data).reverse with
  | [] => file_name
  | [p] => String.mk (p ++ '_' :: (Nat.repr k).data)
  | ext :: prev :: rest =>
    String.mk (joinDots (((prev ++ '_' :: (Nat.repr k).data) :: rest).reverse ++ [ext]))

/-- Decidable record that every step of a `send_to` run succeeds and
that the three names the step derives are fresh: the Awaiting name is
unused, the artifact name the encryption step picks in Outbox is unused,
and the Sent name is unused.  The freshness conjuncts hold in every real
run (the derivation loop returns an unused name whenever its fuel
suffices); recording them makes the success theorem's bookkeeping
exact. -/
def sendSuccessRun (orc : SendOracles) : FS → List String → Bool
  | _, [] => true
  | fs, n :: rest =>
    let A := non_conflicting_name fs "Awaiting" n
    let fs1 := renameFile fs ⟨"Outbox", n⟩ A
    let P := non_conflicting_name fs1 "Outbox" A.name
    let S := non_conflicting_name fs1 "Sent" n
    (orc.encrypt n).isNone && (orc.put n).isNone &&
      decide (A ∉ fs) && decide (P ∉ fs1) && decide (S ∉ fs1) &&
      sendSuccessRun orc (S :: fs.erase ⟨"Outbox", n⟩) rest

/-- Decidable record that along a `receive_from` download loop each
successfully downloaded file is written under a locally fresh Awaiting
name (true in every real run, see `sendSuccessRun`); the loop stops at
the first failing download, so freshness is only recorded up to it. -/
def recvRunFresh (getFail : String → Option String) : FS → List String → Bool
  | _, [] => true
  | fs, n :: rest =>
    match getFail n with
    | some _ => true
    | none =>
      let p := non_conflicting_name fs "Awaiting" n
      decide (p ∉ fs) && recvRunFresh getFail (createFile fs p) rest

/-- Oracles for the C1 scenario: every encryption succeeds, only the
upload of `a.txt` fails (with cause `boom`). -/
def sendOrcC1 : SendOracles :=
  ⟨fun _ => none, fun n => if n = "a.txt" then some "boom" else none⟩

/-- Download oracle for the C4 witness scenario: only `b.txt` fails. -/
def getFailC4 : String → Option String :=
  fun nm => if nm = "b.txt" then some "boom" else none

/-- Download oracle for the C5 scenario: only `b.txt` fails. -/
def getFailC5 : String → Option String :=
  fun nm => if nm = "b.txt" then some "boom" else none

theorem findFree_dir (fs : FS) (d file_name : String) (k fuel : Nat) :
    (findFree fs d file_name k fuel).dir = d := by
  induction fuel generalizing k with
  | zero => rfl
  | succ fuel ih =>
    simp only [findFree]
    split
    · exact ih _
    · rfl

theorem non_conflicting_name_dir (fs : FS) (d file_name : String) :
    (non_conflicting_name fs d file_name).dir = d := by
  unfold non_conflicting_name
  split
  · exact findFree_dir ..
  · rfl

theorem findFree_eq_of_least (fs : FS) (d file_name : String) (N : Nat) :
    ∀ fuel k, k ≤ N → N - k < fuel →
    (⟨d, addSuffix file_name N⟩ : QFile) ∉ fs →
    (∀ j, k ≤ j → j < N → (⟨d, addSuffix file_name j⟩ : QFile) ∈ fs) →
    findFree fs d file_name k fuel = ⟨d, addSuffix file_name N⟩ := by
  intro fuel
  induction fuel with
  | zero => intro k _ h; omega
  | succ fuel ih =>
    intro k hkN hfuel hfree hmin
    simp only [findFree]
    rcases Nat.lt_or_ge k N with hk | hk
    · rw [if_pos (hmin k le_rfl hk)]
      exact ih (k + 1) hk (by omega) hfree (fun j hj hj2 => hmin j (by omega) hj2)
    · have : k = N := le_antisymm hkN hk
      subst this
      rw [if_neg hfree]

/-- Characterisation of `_non_conflicting_name` on a conflict: if `N` is
the least positive counter whose candidate is unused and the fuel bound
reaches it, the helper returns that candidate. -/
theorem non_conflicting_name_of_conflict (fs : FS) (d file_name : String) (N : Nat)
    (h1 : 1 ≤ N)
    (hfree : (⟨d, addSuffix file_name N⟩ : QFile) ∉ fs)
    (hmin : ∀ j, 1 ≤ j → j < N → (⟨d, addSuffix file_name j⟩ : QFile) ∈ fs)
    (hle : N ≤ fs.length + 1)
    (hmem : (⟨d, file_name⟩ : QFile) ∈ fs) :
    non_conflicting_name fs d file_name = ⟨d, addSuffix file_name N⟩ := by
  unfold non_conflicting_name
  rw [if_pos hmem]
  exact findFree_eq_of_least fs d file_name N _ 1 h1 (by omega) hfree hmin

theorem non_conflicting_name_of_no_conflict (fs : FS) (d file_name : String)
    (h : (⟨d, file_name⟩ : QFile) ∉ fs) :
    non_conflicting_name fs d file_name = ⟨d, file_name⟩ := by
  unfold non_conflicting_name
  rw [if_neg h]

/-- C10: for every file whose sequence of lines (trailing newlines
kept, as Python `readlines` produces them) contains no element exactly
equal to `-----BEGIN PGP MESSAGE-----`, `PGP.decrypt` returns that
file's content verbatim, without invoking the underlying decryption and
without raising; in particular the result does not depend on the
decryption collaborator at all, and in the list version the file's
content appears verbatim at its position. -/
theorem C10_decrypt_passthrough (gpg : String → Except String String) (content : String)
    (h : message_beginning_indicator ∉ pyReadlines [] content.data) :
    pgp_decrypt_one gpg content = Except.ok content ∧
    ∀ cs, pgp_decrypt gpg (content :: cs) =
      Except.map (fun rs => content :: rs) (pgp_decrypt gpg cs) := by
  have h1 : pgp_decrypt_one gpg content = Except.ok content := by
    unfold pgp_decrypt_one
    rw [if_neg h]
  refine ⟨h1, fun cs => ?_⟩
  cases hrec : pgp_decrypt gpg cs with
  | error e => simp [pgp_decrypt, h1, hrec, Except.map]
  | ok rs => simp [pgp_decrypt, h1, hrec, Except.map]

/-- C10 witness: a file whose first line is the PGP header followed by
a newline is returned verbatim even by a decryptor that always fails,
because the line `-----BEGIN PGP MESSAGE-----\n` is not equal to the
indicator string. -/
theorem C10_decrypt_passthrough_witness :
    pgp_decrypt_one (fun _ => Except.error "err") "-----BEGIN PGP MESSAGE-----\nabc" =
      Except.ok "-----BEGIN PGP MESSAGE-----\nabc" :=
  (C10_decrypt_passthrough (fun _ => Except.error "err") "-----BEGIN PGP MESSAGE-----\nabc"
    (by decide)).1

/-- C8: a missing `host` key makes `_connection_properties_check`
raise; requesting the PGP encryption or decryption mode with no PGP
object configured raises; requesting the `"None"` mode with no PGP
object succeeds for both directions. -/
theorem C8_configuration_errors :
    (∀ keys : List String, "host" ∉ keys →
      ∃ e, connection_properties_check keys = Except.error e) ∧
    (∀ (fail : Option String) (fs : FS) (src : QFile),
      cryptionEncryptOne "PGP" false fail fs src = Except.error pgpMissingMsg) ∧
    (∀ (fail : Option String) (fs : FS) (srcs : List QFile),
      cryptionDecryptList "PGP" false fail fs srcs = Except.error pgpMissingMsg) ∧
    (∀ (fs : FS) (src : QFile),
      ∃ r, cryptionEncryptOne "None" false none fs src = Except.ok r) ∧
    (∀ (fs : FS) (srcs : List QFile),
      ∃ r, cryptionDecryptList "None" false none fs srcs = Except.ok r) := by
  refine ⟨fun keys hk => ⟨"Excepted a value for host in connection_properties", ?_⟩,
    fun fail fs src => ?_, fun fail fs srcs => ?_,
    fun fs src => ⟨(createFile fs (non_conflicting_name fs "Outbox" src.name),
      non_conflicting_name fs "Outbox" src.name), ?_⟩,
    fun fs srcs => ⟨((srcs.map (fun s => non_conflicting_name fs "Inbox" s.name)).foldl
        createFile fs, srcs.map (fun s => non_conflicting_name fs "Inbox" s.name)), ?_⟩⟩
  · unfold connection_properties_check
    rw [if_pos hk]
  · unfold cryptionEncryptOne
    rw [if_pos rfl]
    rfl
  · unfold cryptionDecryptList
    rw [if_pos rfl]
    rfl
  · unfold cryptionEncryptOne
    rw [if_neg (by decide), if_pos rfl]
  · unfold cryptionDecryptList
    rw [if_neg (by decide), if_pos rfl]

/-- C8 witness: the three behaviours at concrete inputs: a key set
without `host` errors, PGP mode with no PGP object errors, `"None"`
mode with no PGP object succeeds. -/
theorem C8_configuration_errors_witness :
    (∃ e, connection_properties_check ["username", "password"] = Except.error e) ∧
    cryptionEncryptOne "PGP" false none [] ⟨"Awaiting", "a.txt"⟩ =
      Except.error pgpMissingMsg ∧
    ∃ r, cryptionEncryptOne "None" false none [] ⟨"Awaiting", "a.txt"⟩ = Except.ok r := by
  have h := C8_configuration_errors
  exact ⟨h.1 ["username", "password"] (by decide), h.2.1 none [] ⟨"Awaiting", "a.txt"⟩,
    h.2.2.2.1 [] ⟨"Awaiting", "a.txt"⟩⟩

/-- C6 counterexample: with `Inbox` already containing `a.b.c`, the
helper returns `a_1.b.c` — the counter is appended to the segment
before the FIRST dot — while the claim's rule of inserting `_1` before
the last `.`-delimited extension segment would give `a.b_1.c`. -/
theorem C6_counterexample :
    non_conflicting_name [⟨"Inbox", "a.b.c"⟩] "Inbox" "a.b.c" = ⟨"Inbox", "a_1.b.c"⟩ ∧
    addSuffixSpecLast "a.b.c" 1 = "a.b_1.c" ∧
    (⟨"Inbox", addSuffixSpecLast "a.b.c" 1⟩ : QFile) ∉ ([⟨"Inbox", "a.b.c"⟩] : FS) ∧
    non_conflicting_name [⟨"Inbox", "a.b.c"⟩] "Inbox" "a.b.c" ≠
      ⟨"Inbox", addSuffixSpecLast "a.b.c" 1⟩ := by decide

/-- C6 (amended): the helper returns the candidate unchanged when no
file of that name exists; otherwise it returns the name obtained by
appending `_N` — `N` the smallest positive integer not in use — to the
segment before the FIRST dot of the name; the result never names an
existing file, so deriving after creating the previously derived file
yields a different, non-colliding name.  The `N`/`N'` hypotheses say
that `N` (resp. `N'` after creating the first result) is that smallest
free counter and that the search bound reaches it, which is how the
source's unbounded loop behaves whenever it terminates. -/
theorem C6_non_conflicting_name_correct (fs : FS) (d n : String) (N : Nat)
    (h1 : 1 ≤ N) (hfree : (⟨d, addSuffix n N⟩ : QFile) ∉ fs)
    (hmin : ∀ j, 1 ≤ j → j < N → (⟨d, addSuffix n j⟩ : QFile) ∈ fs)
    (hle : N ≤ fs.length + 1) :
    ((⟨d, n⟩ : QFile) ∉ fs → non_conflicting_name fs d n = ⟨d, n⟩) ∧
    ((⟨d, n⟩ : QFile) ∈ fs → non_conflicting_name fs d n = ⟨d, addSuffix n N⟩) ∧
    non_conflicting_name fs d n ∉ fs ∧
    (∀ N' : Nat, 1 ≤ N' →
      (⟨d, addSuffix n N'⟩ : QFile) ∉ createFile fs (non_conflicting_name fs d n) →
      (∀ j, 1 ≤ j → j < N' →
        (⟨d, addSuffix n j⟩ : QFile) ∈ createFile fs (non_conflicting_name fs d n)) →
      N' ≤ (createFile fs (non_conflicting_name fs d n)).length + 1 →
      non_conflicting_name (createFile fs (non_conflicting_name fs d n)) d n ≠
          non_conflicting_name fs d n ∧
        non_conflicting_name (createFile fs (non_conflicting_name fs d n)) d n ∉
          createFile fs (non_conflicting_name fs d n)) := by
  have hnot : non_conflicting_name fs d n ∉ fs := by
    by_cases hmem : (⟨d, n⟩ : QFile) ∈ fs
    · rw [non_conflicting_name_of_conflict fs d n N h1 hfree hmin hle hmem]
      exact hfree
    · rw [non_conflicting_name_of_no_conflict fs d n hmem]
      exact hmem
  refine ⟨non_conflicting_name_of_no_conflict fs d n,
    fun hmem => non_conflicting_name_of_conflict fs d n N h1 hfree hmin hle hmem,
    hnot, fun N' h1' hfree' hmin' hle' => ?_⟩
  have hmem' : (⟨d, n⟩ : QFile) ∈ createFile fs (non_conflicting_name fs d n) := by
    by_cases hmem : (⟨d, n⟩ : QFile) ∈ fs
    · exact List.mem_insert_of_mem hmem
    · rw [non_conflicting_name_of_no_conflict fs d n hmem]
      exact List.mem_insert_self _ _
  have h2 := non_conflicting_name_of_conflict (createFile fs (non_conflicting_name fs d n))
    d n N' h1' hfree' hmin' hle' hmem'
  rw [h2]
  constructor
  · intro hEq
    apply hfree'
    rw [← hEq]
    exact List.mem_insert_self _ _
  · rw [← h2]
    rw [h2]
    exact hfree'

/-- C6 witness: `Sent` contains `a.txt`; the first derivation yields
`a_1.txt` (unused), and after creating it the next derivation yields a
different, again unused name. -/
theorem C6_non_conflicting_name_correct_witness :
    non_conflicting_name [⟨"Sent", "a.txt"⟩] "Sent" "a.txt" = ⟨"Sent", "a_1.txt"⟩ ∧
    non_conflicting_name [⟨"Sent", "a.txt"⟩] "Sent" "a.txt" ∉ ([⟨"Sent", "a.txt"⟩] : FS) ∧
    non_conflicting_name (createFile [⟨"Sent", "a.txt"⟩]
        (non_conflicting_name [⟨"Sent", "a.txt"⟩] "Sent" "a.txt")) "Sent" "a.txt" ≠
      non_conflicting_name [⟨"Sent", "a.txt"⟩] "Sent" "a.txt" := by
  have h := C6_non_conflicting_name_correct [⟨"Sent", "a.txt"⟩] "Sent" "a.txt" 1
    (by decide) (by decide) (by intro j hj1 hj2; omega) (by decide)
  have h' := h.2.2.2 2 (by decide) (by decide)
    (by
      intro j hj1 hj2
      have : j = 1 := by omega
      subst this
      decide)
    (by decide)
  exact ⟨h.2.1 (by decide), h.2.2.1, h'.1⟩

/-- C7 counterexample: with all four queue directories missing and the
user declining the interactive prompt, `_check_if_setup` raises
nothing, returns Python `None`, and the directories are still missing —
a missing queue directory is not reported as an error fatal to the
call. -/
theorem C7_counterexample :
    (check_if_setup [] false).raised = false ∧
    (check_if_setup [] false).result = none ∧
    "Inbox" ∉ (check_if_setup [] false).cwd := by decide

/-- C7 (amended): the directory check runs once, at construction; it
never raises.  If all four queue directories are present it returns
`True` and changes nothing; if any is missing it prompts the user
interactively: on decline it returns `None` and the constructor simply
proceeds with the directories still missing, on accept it creates the
missing directories itself. -/
theorem C7_setup_check_interactive (files_in_dir : List String) (user_says_yes : Bool) :
    (check_if_setup files_in_dir user_says_yes).raised = false ∧
    ((∀ p ∈ required_paths, p ∈ files_in_dir) →
      check_if_setup files_in_dir user_says_yes = ⟨files_in_dir, false, some true⟩) ∧
    ((∃ p ∈ required_paths, p ∉ files_in_dir) → user_says_yes = false →
      check_if_setup files_in_dir user_says_yes = ⟨files_in_dir, false, none⟩) ∧
    ((∃ p ∈ required_paths, p ∉ files_in_dir) → user_says_yes = true →
      ∀ p ∈ required_paths, p ∈ (check_if_setup files_in_dir user_says_yes).cwd) := by
  by_cases hI : "Inbox" ∈ files_in_dir <;>
    by_cases hO : "Outbox" ∈ files_in_dir <;>
    by_cases hS : "Sent" ∈ files_in_dir <;>
    by_cases hA : "Awaiting" ∈ files_in_dir <;>
    cases user_says_yes <;>
    simp_all [check_if_setup, required_paths, SetupOutcome.mk.injEq, List.mem_append]

/-- C7 witness: concrete instance of the amended behaviour — with only
`Inbox` present and the user accepting, the three missing directories
are created and nothing is raised; with the user declining, the call
returns `None` without raising. -/
theorem C7_setup_check_interactive_witness :
    (check_if_setup ["Inbox"] true).raised = false ∧
    (∀ p ∈ required_paths, p ∈ (check_if_setup ["Inbox"] true).cwd) ∧
    check_if_setup ["Inbox"] false = ⟨["Inbox"], false, none⟩ := by
  have h1 := C7_setup_check_interactive ["Inbox"] true
  have h2 := C7_setup_check_interactive ["Inbox"] false
  refine ⟨h1.1, h1.2.2.2 ⟨"Outbox", by decide, by decide⟩ rfl, ?_⟩
  exact h2.2.2.1 ⟨"Outbox", by decide, by decide⟩ rfl

/-- C1 counterexample: `Outbox` holds `a.txt` and `b.txt` and only the
upload of `a.txt` fails.  The claim asserts the final state
`Outbox = {a.txt}`, `Sent = {b.txt}`, but the exception raised for
`a.txt` propagates out of the `for` loop, so `b.txt` is never attempted:
it stays in `Outbox` and nothing reaches `Sent`. -/
theorem C1_counterexample :
    listdir (send_to "None" true sendOrcC1
      [⟨"Outbox", "a.txt"⟩, ⟨"Outbox", "b.txt"⟩]).1 "Sent" = [] ∧
    listdir (send_to "None" true sendOrcC1
      [⟨"Outbox", "a.txt"⟩, ⟨"Outbox", "b.txt"⟩]).1 "Outbox" = ["a.txt", "b.txt"] := by
  decide

/-- C1 (amended): the failure of one file's transfer ABORTS the batch —
the per-file exception propagates out of the loop, so the remaining
Outbox files are not attempted.  In the scenario where Outbox holds
`a.txt` and `b.txt` and only the upload of `a.txt` fails, the final
state is `Outbox = {a.txt, b.txt}`, `Sent = {}`, `Awaiting = {}`, with
one transfer error naming `a.txt`. -/
theorem C1_batch_aborts_on_failure :
    (∀ (mode : String) (pgpPresent : Bool) (orc : SendOracles) (fs : FS) (n : String)
      (rest : List String) (fs' : FS) (e : String),
      sendOne mode pgpPresent orc fs n = (fs', some e) →
      sendLoop mode pgpPresent orc fs (n :: rest) = (fs', some e)) ∧
    send_to "None" true sendOrcC1 [⟨"Outbox", "a.txt"⟩, ⟨"Outbox", "b.txt"⟩] =
      ([⟨"Outbox", "a.txt"⟩, ⟨"Outbox", "b.txt"⟩], some (putFailMsg "a.txt" "boom")) ∧
    listdir (send_to "None" true sendOrcC1
      [⟨"Outbox", "a.txt"⟩, ⟨"Outbox", "b.txt"⟩]).1 "Awaiting" = [] ∧
    "a.txt".data <:+: (putFailMsg "a.txt" "boom").data := by
  refine ⟨?_, by decide, by decide, by decide⟩
  intro mode pgpPresent orc fs n rest fs' e h
  simp only [sendLoop, h]

/-- C1 witness: the abort rule applied at a concrete input — a pending
second name `zzz.txt` is dropped when the first file's upload fails. -/
theorem C1_batch_aborts_on_failure_witness :
    sendLoop "None" true sendOrcC1 [⟨"Outbox", "a.txt"⟩] ["a.txt", "zzz.txt"] =
      ([⟨"Outbox", "a.txt"⟩], some (putFailMsg "a.txt" "boom")) :=
  C1_batch_aborts_on_failure.1 "None" true sendOrcC1 [⟨"Outbox", "a.txt"⟩] "a.txt"
    ["zzz.txt"] [⟨"Outbox", "a.txt"⟩] (putFailMsg "a.txt" "boom") (by decide)

/-- C9: in both the `"None"` and `"PGP"` modes the intermediate file to
be uploaded is created inside the Outbox directory (never Awaiting),
under a name derived from the processed file's name, and it exists on
disk as soon as the encryption step returns.  Concretely, with
`Outbox = {a.txt}` and the upload failing, the artifact path coincides
with the original Outbox path `Outbox/a.txt`, the broken cleanup guard
(which tests the one-character string `"O"`) leaves it in place, and the
rollback rename therefore targets a path already occupied by the
artifact. -/
theorem C9_artifact_in_outbox (mode : String) (pgpPresent : Bool) (fail : Option String)
    (fs : FS) (src : QFile) (fs2 : FS) (out : QFile)
    (h : cryptionEncryptOne mode pgpPresent fail fs src = Except.ok (fs2, out)) :
    (out.dir = "Outbox" ∧ out ∈ fs2) ∧
    (cryptionEncryptOne "None" true none
        (renameFile [⟨"Outbox", "a.txt"⟩] ⟨"Outbox", "a.txt"⟩ ⟨"Awaiting", "a.txt"⟩)
        ⟨"Awaiting", "a.txt"⟩ =
      Except.ok ([⟨"Outbox", "a.txt"⟩, ⟨"Awaiting", "a.txt"⟩], ⟨"Outbox", "a.txt"⟩) ∧
      strHead (pathStr (⟨"Outbox", "a.txt"⟩ : QFile)) = "O" ∧
      (⟨"", "O"⟩ : QFile) ∉ ([⟨"Outbox", "a.txt"⟩, ⟨"Awaiting", "a.txt"⟩] : FS) ∧
      (⟨"Outbox", "a.txt"⟩ : QFile) ∈ ([⟨"Outbox", "a.txt"⟩, ⟨"Awaiting", "a.txt"⟩] : FS)) := by
  refine ⟨?_, by rfl, by decide, by decide, by decide⟩
  by_cases h1 : mode = "PGP"
  · subst h1
    cases pgpPresent with
    | false => simp [cryptionEncryptOne] at h
    | true =>
      cases fail with
      | some e => simp [cryptionEncryptOne] at h
      | none =>
        simp [cryptionEncryptOne] at h
        obtain ⟨hfs2, hout⟩ := h
        subst hfs2
        subst hout
        exact ⟨non_conflicting_name_dir .., List.mem_insert_self _ _⟩
  · by_cases h2 : mode = "None"
    · subst h2
      cases fail with
      | some e => simp [cryptionEncryptOne] at h
      | none =>
        simp [cryptionEncryptOne] at h
        obtain ⟨hfs2, hout⟩ := h
        subst hfs2
        subst hout
        exact ⟨non_conflicting_name_dir .., List.mem_insert_self _ _⟩
    · simp [cryptionEncryptOne, h1, h2] at h

/-- C9 witness: the general part applied at a concrete successful
encryption step. -/
theorem C9_artifact_in_outbox_witness :
    ((⟨"Outbox", "x.txt"⟩ : QFile).dir = "Outbox" ∧
      (⟨"Outbox", "x.txt"⟩ : QFile) ∈ ([⟨"Outbox", "x.txt"⟩] : FS)) :=
  (C9_artifact_in_outbox "None" true none [] ⟨"Awaiting", "x.txt"⟩
    [⟨"Outbox", "x.txt"⟩] ⟨"Outbox", "x.txt"⟩ (by rfl)).1

/-- C2: evaluation of `send_to`'s loop body at a failing input, showing
the code slip.  First scenario: `Outbox` and `Awaiting` both already
hold `a.txt` and the upload fails — the file is moved back to Outbox
under its original pre-move name `a.txt` and is in neither Awaiting
(beyond the pre-existing copy) nor Sent, and the error names the file
and the cause, BUT the transformed artifact `Outbox/a_1.txt` is NOT
removed from disk: the cleanup guard tests `file_to_send_path[0]`, the
first character `"O"` of the artifact path, contradicting the code's
own comment "clean created files (if any)".  Second scenario: when the
encryption step itself fails the rollback works, but the reported
message `Encryption failed, error code was: boom` does not name the
file. -/
theorem C2_cleanup_bug :
    sendOne "None" true ⟨fun _ => none, fun _ => some "boom"⟩
        [⟨"Outbox", "a.txt"⟩, ⟨"Awaiting", "a.txt"⟩] "a.txt" =
      ([⟨"Outbox", "a.txt"⟩, ⟨"Outbox", "a_1.txt"⟩, ⟨"Awaiting", "a.txt"⟩],
        some (putFailMsg "a.txt" "boom")) ∧
    "a.txt".data <:+: (putFailMsg "a.txt" "boom").data ∧
    sendOne "None" true ⟨fun _ => some "boom", fun _ => none⟩
        [⟨"Outbox", "a.txt"⟩] "a.txt" =
      ([⟨"Outbox", "a.txt"⟩], some (encFailMsg "boom")) ∧
    ¬ ("a.txt".data <:+: (encFailMsg "boom").data) := by
  decide

theorem sendOne_success (mode : String) (pgpPresent : Bool) (orc : SendOracles)
    (fs : FS) (n : String) (A : QFile) (fs1 : FS) (P S : QFile)
    (hmode : mode = "None" ∨ (mode = "PGP" ∧ pgpPresent = true))
    (henc : orc.encrypt n = none) (hput : orc.put n = none)
    (hAdef : A = non_conflicting_name fs "Awaiting" n)
    (hfs1 : fs1 = renameFile fs ⟨"Outbox", n⟩ A)
    (hPdef : P = non_conflicting_name fs1 "Outbox" A.name)
    (hSdef : S = non_conflicting_name fs1 "Sent" n)
    (hA : A ∉ fs) (hP : P ∉ fs1) (hS : S ∉ fs1) :
    sendOne mode pgpPresent orc fs n = (S :: fs.erase ⟨"Outbox", n⟩, none) := by
  have hcrypt : cryptionEncryptOne mode pgpPresent (orc.encrypt n) fs1 A =
      Except.ok (createFile fs1 P, P) := by
    rcases hmode with h | ⟨h, hp⟩
    · subst h
      rw [henc, hPdef]
      rfl
    · subst h
      subst hp
      rw [henc, hPdef]
      rfl
  have hA' : A ∉ fs.erase ⟨"Outbox", n⟩ := fun hmem => hA (List.mem_of_mem_erase hmem)
  have hfs1' : fs1 = A :: fs.erase ⟨"Outbox", n⟩ := by
    rw [hfs1, renameFile, List.insert_of_not_mem hA']
  have hPmem : P ∈ createFile fs1 P := List.mem_insert_self _ _
  have hremove : removeFile (createFile fs1 P) P = fs1 := by
    rw [createFile, List.insert_of_not_mem hP, removeFile, List.erase_cons_head]
  have hSe : S ∉ fs.erase ⟨"Outbox", n⟩ := by
    intro hmem
    exact hS (hfs1' ▸ List.mem_cons_of_mem A hmem)
  have hfinal : renameFile fs1 A S = S :: fs.erase ⟨"Outbox", n⟩ := by
    rw [hfs1', renameFile, List.erase_cons_head, List.insert_of_not_mem hSe]
  simp only [sendOne, ← hAdef, ← hfs1, hcrypt, hput, if_pos hPmem, hremove, ← hSdef, hfinal]

theorem sendLoop_success (mode : String) (pgpPresent : Bool) (orc : SendOracles)
    (hmode : mode = "None" ∨ (mode = "PGP" ∧ pgpPresent = true)) :
    ∀ (names : List String) (fs : FS), fs.Nodup →
    sendSuccessRun orc fs names = true →
    (sendLoop mode pgpPresent orc fs names).2 = none ∧
    (sendLoop mode pgpPresent orc fs names).1.Nodup ∧
    (∀ p ∈ (sendLoop mode pgpPresent orc fs names).1,
      (p ∈ fs ∧ ¬(p.dir = "Outbox" ∧ p.name ∈ names)) ∨ (p.dir = "Sent" ∧ p ∉ fs)) ∧
    (∀ p ∈ fs, ¬(p.dir = "Outbox" ∧ p.name ∈ names) →
      p ∈ (sendLoop mode pgpPresent orc fs names).1) ∧
    (∀ n ∈ names, ∃ m, (⟨"Sent", m⟩ : QFile) ∈ (sendLoop mode pgpPresent orc fs names).1 ∧
      (⟨"Sent", m⟩ : QFile) ∉ fs) := by
  intro names
  induction names with
  | nil =>
    intro fs hnd _
    refine ⟨rfl, hnd, fun p hp => Or.inl ⟨hp, by simp⟩, fun p hp _ => hp, by simp⟩
  | cons n rest ih =>
    intro fs hnd hrun
    simp only [sendSuccessRun, Bool.and_eq_true, decide_eq_true_eq] at hrun
    obtain ⟨⟨⟨⟨⟨henc, hput⟩, hA⟩, hP⟩, hS⟩, hrest⟩ := hrun
    set A := non_conflicting_name fs "Awaiting" n with hAdef
    set fs1 := renameFile fs ⟨"Outbox", n⟩ A with hfs1
    set S := non_conflicting_name fs1 "Sent" n with hSdef
    have hstep := sendOne_success mode pgpPresent orc fs n A fs1
      (non_conflicting_name fs1 "Outbox" A.name) S hmode
      (Option.isNone_iff_eq_none.mp henc) (Option.isNone_iff_eq_none.mp hput)
      hAdef hfs1 rfl hSdef hA hP hS
    have hloop : sendLoop mode pgpPresent orc fs (n :: rest) =
        sendLoop mode pgpPresent orc (S :: fs.erase ⟨"Outbox", n⟩) rest := by
      simp only [sendLoop, hstep]
    have hSdir : S.dir = "Sent" := non_conflicting_name_dir ..
    have hSnotfs : S ∉ fs := by
      intro hmem
      apply hS
      have hne : S ≠ ⟨"Outbox", n⟩ := by
        intro hEq
        rw [hEq] at hSdir
        exact absurd hSdir (by simp)
      exact hfs1 ▸ List.mem_insert_of_mem ((List.mem_erase_of_ne hne).mpr hmem)
    have hndfs' : (S :: fs.erase ⟨"Outbox", n⟩).Nodup := by
      refine List.nodup_cons.mpr ⟨?_, hnd.erase _⟩
      intro hmem
      exact hSnotfs (List.mem_of_mem_erase hmem)
    obtain ⟨ih1, ih2, ih3, ih4, ih5⟩ := ih (S :: fs.erase ⟨"Outbox", n⟩) hndfs' hrest
    rw [hloop]
    refine ⟨ih1, ih2, ?_, ?_, ?_⟩
    · intro p hp
      rcases ih3 p hp with ⟨hpfs', hpnot⟩ | ⟨hpdir, hpnot⟩
      · rcases List.mem_cons.mp hpfs' with hpS | hpe
        · subst hpS
          exact Or.inr ⟨hSdir, hSnotfs⟩
        · refine Or.inl ⟨List.mem_of_mem_erase hpe, ?_⟩
          rintro ⟨hdir, hname⟩
          rcases List.mem_cons.mp hname with hname | hname
          · have : p = ⟨"Outbox", n⟩ := by
              cases p
              simp_all
            rw [this] at hpe
            exact absurd rfl ((hnd.mem_erase_iff.mp hpe).1)
          · exact hpnot ⟨hdir, hname⟩
      · refine Or.inr ⟨hpdir, fun hmem => ?_⟩
        apply hpnot
        have hne : p ≠ ⟨"Outbox", n⟩ := by
          intro hEq
          rw [hEq] at hpdir
          exact absurd hpdir (by simp)
        exact List.mem_cons_of_mem S ((List.mem_erase_of_ne hne).mpr hmem)
    · intro p hp hpnot
      have hne : p ≠ ⟨"Outbox", n⟩ := by
        intro hEq
        exact hpnot ⟨by rw [hEq], by rw [hEq]; exact List.mem_cons_self n rest⟩
      refine ih4 p (List.mem_cons_of_mem S ((List.mem_erase_of_ne hne).mpr hp)) ?_
      rintro ⟨hdir, hname⟩
      exact hpnot ⟨hdir, List.mem_cons_of_mem n hname⟩
    · intro m hm
      rcases List.mem_cons.mp hm with hm | hm
      · subst hm
        have hSfull : (⟨"Sent", S.name⟩ : QFile) = S := by rw [← hSdir]
        refine ⟨S.name, ?_, ?_⟩
        · rw [hSfull]
          refine ih4 S (List.mem_cons_self _ _) ?_
          rintro ⟨hdir, _⟩
          rw [hSdir] at hdir
          exact absurd hdir (by decide)
        · rw [hSfull]
          exact hSnotfs
      · obtain ⟨m', hmem, hnot⟩ := ih5 m hm
        refine ⟨m', hmem, fun hmemfs => ?_⟩
        apply hnot
        have hne : (⟨"Sent", m'⟩ : QFile) ≠ ⟨"Outbox", n⟩ := by
          intro hEq
          simp at hEq
        exact List.mem_cons_of_mem S ((List.mem_erase_of_ne hne).mpr hmemfs)

/-- C3: when a `send_to` call completes successfully (every step of the
run succeeds and each derived name is fresh, which is how the name
helper behaves in every real run), every file of the Outbox snapshot
afterwards exists in Sent under a new (non-conflicting) name and exists
in neither Outbox nor Awaiting, the plaintext Awaiting copies are gone
(the Awaiting directory holds nothing beyond what it held before), the
transient encrypted artifacts are gone (Outbox holds nothing new), and
no error is raised. -/
theorem C3_send_success (mode : String) (pgpPresent : Bool) (orc : SendOracles) (fs : FS)
    (hmode : mode = "None" ∨ (mode = "PGP" ∧ pgpPresent = true))
    (hnd : fs.Nodup)
    (hrun : sendSuccessRun orc fs (listdir fs "Outbox") = true) :
    (send_to mode pgpPresent orc fs).2 = none ∧
    (∀ n ∈ listdir fs "Outbox",
      (⟨"Outbox", n⟩ : QFile) ∉ (send_to mode pgpPresent orc fs).1 ∧
      ∃ m, (⟨"Sent", m⟩ : QFile) ∈ (send_to mode pgpPresent orc fs).1 ∧
        (⟨"Sent", m⟩ : QFile) ∉ fs) ∧
    (∀ p ∈ (send_to mode pgpPresent orc fs).1, p.dir = "Awaiting" → p ∈ fs) ∧
    (∀ p ∈ (send_to mode pgpPresent orc fs).1, p.dir = "Outbox" →
      p ∈ fs ∧ p.name ∉ listdir fs "Outbox") := by
  obtain ⟨h1, _, h3, h4, h5⟩ :=
    sendLoop_success mode pgpPresent orc hmode (listdir fs "Outbox") fs hnd hrun
  refine ⟨h1, fun n hn => ⟨?_, h5 n hn⟩, fun p hp hdir => ?_, fun p hp hdir => ?_⟩
  · intro hmem
    rcases h3 _ hmem with ⟨_, hnot⟩ | ⟨hdir, _⟩
    · exact hnot ⟨rfl, hn⟩
    · exact absurd hdir (by simp)
  · rcases h3 p hp with ⟨hpfs, _⟩ | ⟨hpdir, _⟩
    · exact hpfs
    · rw [hdir] at hpdir
      exact absurd hpdir (by decide)
  · rcases h3 p hp with ⟨hpfs, hnot⟩ | ⟨hpdir, _⟩
    · exact ⟨hpfs, fun hname => hnot ⟨hdir, hname⟩⟩
    · rw [hdir] at hpdir
      exact absurd hpdir (by decide)

/-- C3 witness: a successful two-file send from a concrete state — both
files leave Outbox, two new files appear in Sent, Awaiting is untouched. -/
theorem C3_send_success_witness :
    (send_to "None" true ⟨fun _ => none, fun _ => none⟩
      [⟨"Outbox", "a.txt"⟩, ⟨"Outbox", "b.txt"⟩]).2 = none ∧
    (⟨"Outbox", "a.txt"⟩ : QFile) ∉ (send_to "None" true ⟨fun _ => none, fun _ => none⟩
      [⟨"Outbox", "a.txt"⟩, ⟨"Outbox", "b.txt"⟩]).1 ∧
    ∃ m, (⟨"Sent", m⟩ : QFile) ∈ (send_to "None" true ⟨fun _ => none, fun _ => none⟩
      [⟨"Outbox", "a.txt"⟩, ⟨"Outbox", "b.txt"⟩]).1 ∧
      (⟨"Sent", m⟩ : QFile) ∉ ([⟨"Outbox", "a.txt"⟩, ⟨"Outbox", "b.txt"⟩] : FS) := by
  have h := C3_send_success "None" true ⟨fun _ => none, fun _ => none⟩
    [⟨"Outbox", "a.txt"⟩, ⟨"Outbox", "b.txt"⟩] (Or.inl rfl) (by decide) (by decide)
  exact ⟨h.1, (h.2.1 "a.txt" (by decide)).1, (h.2.1 "a.txt" (by decide)).2⟩

theorem receiveLoop_inv (getFail : String → Option String) :
    ∀ (pending : List String) (fs : FS) (remote : List String) (fetched : List QFile),
    recvRunFresh getFail fs pending = true →
    (∀ p ∈ fs, p ∈ (receiveLoop getFail fs remote fetched pending).fs) ∧
    (∀ m e, m ∈ remote → getFail m = some e →
      m ∈ (receiveLoop getFail fs remote fetched pending).remote) ∧
    (∀ m ∈ pending, m ∉ (receiveLoop getFail fs remote fetched pending).remote →
      m ∈ remote → getFail m = none ∧
      ∃ p, p ∈ (receiveLoop getFail fs remote fetched pending).fs ∧ p ∉ fs ∧
        p.dir = "Awaiting") := by
  intro pending
  induction pending with
  | nil =>
    intro fs remote fetched _
    exact ⟨fun p hp => hp, fun m e hm _ => hm, by simp⟩
  | cons n rest ih =>
    intro fs remote fetched hfresh
    cases hg : getFail n with
    | some e0 =>
      have hloop : receiveLoop getFail fs remote fetched (n :: rest) =
          ⟨fs, remote, fetched, some e0⟩ := by
        simp only [receiveLoop, hg]
      rw [hloop]
      exact ⟨fun p hp => hp, fun m e hm _ => hm, fun m _ hnot hmem => absurd hmem hnot⟩
    | none =>
      simp only [recvRunFresh, hg, Bool.and_eq_true, decide_eq_true_eq] at hfresh
      obtain ⟨hp0, hrest⟩ := hfresh
      set p0 := non_conflicting_name fs "Awaiting" n with hp0def
      have hloop : receiveLoop getFail fs remote fetched (n :: rest) =
          receiveLoop getFail (createFile fs p0) (remote.erase n)
            (fetched ++ [p0]) rest := by
        simp only [receiveLoop, hg]
      rw [hloop]
      obtain ⟨ih1, ih2, ih3⟩ :=
        ih (createFile fs p0) (remote.erase n) (fetched ++ [p0]) hrest
      refine ⟨fun q hq => ih1 q (List.mem_insert_of_mem hq), ?_, ?_⟩
      · intro m e hm he
        have hmn : m ≠ n := by
          intro hEq
          rw [hEq, hg] at he
          exact Option.noConfusion he
        exact ih2 m e ((List.mem_erase_of_ne hmn).mpr hm) he
      · intro m hm hnot hmem
        by_cases hmn : m = n
        · subst hmn
          refine ⟨hg, p0, ih1 p0 (List.mem_insert_self _ _), hp0, ?_⟩
          rw [hp0def]
          exact non_conflicting_name_dir ..
        · have hm' : m ∈ rest := by
            rcases List.mem_cons.mp hm with h | h
            · exact absurd h hmn
            · exact h
          obtain ⟨hgm, q, hq1, hq2, hq3⟩ :=
            ih3 m hm' hnot ((List.mem_erase_of_ne hmn).mpr hmem)
          exact ⟨hgm, q, hq1, fun hq => hq2 (List.mem_insert_of_mem hq), hq3⟩

/-- C4: in `receive_from`'s download loop a remote file is removed only
after its local Awaiting copy has been written: whenever the download of
a listed name fails, that name is still present remotely at the end; and
whenever a listed name is no longer present remotely, its download
succeeded and a new local Awaiting file exists in the final state.  The
`recvRunFresh` hypothesis records that each download is written under a
locally fresh name, which is how the name helper behaves in every real
run. -/
theorem C4_remote_removed_only_after_local (getFail : String → Option String)
    (fs : FS) (remote : List String)
    (hfresh : recvRunFresh getFail fs remote = true) :
    (∀ m e, m ∈ remote → getFail m = some e →
      m ∈ (receiveLoop getFail fs remote [] remote).remote) ∧
    (∀ m ∈ remote, m ∉ (receiveLoop getFail fs remote [] remote).remote →
      getFail m = none ∧
      ∃ p, p ∈ (receiveLoop getFail fs remote [] remote).fs ∧ p ∉ fs ∧
        p.dir = "Awaiting") := by
  obtain ⟨_, h2, h3⟩ := receiveLoop_inv getFail remote fs remote [] hfresh
  exact ⟨h2, fun m hm hnot => h3 m hm hnot hm⟩

/-- C4 witness: with remote files `a.txt`, `b.txt` and the download of
`b.txt` failing, `b.txt` is still on the remote and the successfully
downloaded `a.txt` (removed remotely) has a fresh local Awaiting copy. -/
theorem C4_remote_removed_only_after_local_witness :
    "b.txt" ∈ (receiveLoop getFailC4 [] ["a.txt", "b.txt"] [] ["a.txt", "b.txt"]).remote ∧
    (getFailC4 "a.txt" = none ∧
      ∃ p, p ∈ (receiveLoop getFailC4 [] ["a.txt", "b.txt"] [] ["a.txt", "b.txt"]).fs ∧
        p ∉ ([] : FS) ∧ p.dir = "Awaiting") := by
  have h := C4_remote_removed_only_after_local getFailC4 [] ["a.txt", "b.txt"] (by decide)
  exact ⟨h.1 "b.txt" "boom" (by decide) (by decide), h.2 "a.txt" (by decide) (by decide)⟩

theorem receiveLoop_abort (getFail : String → Option String) (n e : String)
    (hn : getFail n = some e) :
    ∀ (pre : List String) (post : List String) (fs : FS) (remote : List String)
      (fetched : List QFile),
    (∀ m ∈ pre, getFail m = none) →
    recvRunFresh getFail fs (pre ++ n :: post) = true →
    (pre ++ n :: post).Nodup →
    (∀ m ∈ post, m ∈ remote) → n ∈ remote →
    (receiveLoop getFail fs remote fetched (pre ++ n :: post)).error = some e ∧
    (∀ p ∈ fs, p ∈ (receiveLoop getFail fs remote fetched (pre ++ n :: post)).fs) ∧
    (∀ m ∈ post, m ∈ (receiveLoop getFail fs remote fetched (pre ++ n :: post)).remote) ∧
    n ∈ (receiveLoop getFail fs remote fetched (pre ++ n :: post)).remote ∧
    (receiveLoop getFail fs remote fetched (pre ++ n :: post)).fs.length =
      fs.length + pre.length := by
  intro pre
  induction pre with
  | nil =>
    intro post fs remote fetched _ _ _ hpost hnr
    have hloop : receiveLoop getFail fs remote fetched ([] ++ n :: post) =
        ⟨fs, remote, fetched, some e⟩ := by
      simp only [List.nil_append, receiveLoop, hn]
    rw [hloop]
    exact ⟨rfl, fun p hp => hp, hpost, hnr, by simp⟩
  | cons m pre' ih =>
    intro post fs remote fetched hpre hfresh hnd hpost hnr
    have hgm : getFail m = none := hpre m (List.mem_cons_self _ _)
    rw [List.cons_append] at hfresh hnd
    simp only [recvRunFresh, hgm, Bool.and_eq_true, decide_eq_true_eq] at hfresh
    obtain ⟨hp0, hrest⟩ := hfresh
    set p0 := non_conflicting_name fs "Awaiting" m with hp0def
    have hmnot : m ∉ pre' ++ n :: post := (List.nodup_cons.mp hnd).1
    have hloop : receiveLoop getFail fs remote fetched ((m :: pre') ++ n :: post) =
        receiveLoop getFail (createFile fs p0) (remote.erase m)
          (fetched ++ [p0]) (pre' ++ n :: post) := by
      rw [List.cons_append]
      simp only [receiveLoop, hgm]
    rw [hloop]
    have hmn : n ≠ m := by
      intro hEq
      apply hmnot
      rw [← hEq]
      exact List.mem_append_right pre' (List.mem_cons_self _ _)
    obtain ⟨ih1, ih2, ih3, ih4, ih5⟩ := ih post (createFile fs p0) (remote.erase m)
      (fetched ++ [p0]) (fun m' hm' => hpre m' (List.mem_cons_of_mem m hm'))
      hrest (List.nodup_cons.mp hnd).2
      (fun m' hm' => (List.mem_erase_of_ne (fun hEq => hmnot (by
        rw [← hEq]
        exact List.mem_append_right pre' (List.mem_cons_of_mem n hm')))).mpr
        (hpost m' hm'))
      ((List.mem_erase_of_ne hmn).mpr hnr)
    have hlen : (createFile fs p0).length = fs.length + 1 := by
      rw [createFile, List.insert_of_not_mem hp0, List.length_cons]
    refine ⟨ih1, fun p hp => ih2 p (List.mem_insert_of_mem hp), ih3, ih4, ?_⟩
    rw [ih5, hlen, List.length_cons]
    omega

/-- C5 (amended): when the download of one remote file fails, the
`sftp.get` exception propagates and ABORTS `receive_from`: the files
already downloaded remain in `Awaiting` (nothing local is removed and
exactly one new Awaiting file exists per completed download), nothing
is returned, and the underlying error surfaces to the caller unchanged
(the code adds no file name to it); the remaining listed remote files
are NOT attempted — they are left on the remote, as is the failing
file. -/
theorem C5_download_failure_aborts (mode : String) (pgpPresent : Bool)
    (decFail : Option String) (getFail : String → Option String)
    (fs : FS) (remote pre post : List String) (n e : String)
    (hsplit : remote = pre ++ n :: post)
    (hpre : ∀ m ∈ pre, getFail m = none)
    (hn : getFail n = some e)
    (hnd : remote.Nodup)
    (hfresh : recvRunFresh getFail fs remote = true) :
    (receive_from mode pgpPresent decFail getFail fs remote).error = some e ∧
    (∀ p ∈ fs, p ∈ (receive_from mode pgpPresent decFail getFail fs remote).fs) ∧
    (∀ m ∈ post, m ∈ (receive_from mode pgpPresent decFail getFail fs remote).remote) ∧
    n ∈ (receive_from mode pgpPresent decFail getFail fs remote).remote ∧
    (receive_from mode pgpPresent decFail getFail fs remote).fs.length =
      fs.length + pre.length ∧
    (receive_from mode pgpPresent decFail getFail fs remote).returned = none := by
  subst hsplit
  obtain ⟨h1, h2, h3, h4, h5⟩ := receiveLoop_abort getFail n e hn pre post fs
    (pre ++ n :: post) [] hpre hfresh hnd
    (fun m hm => List.mem_append_right pre (List.mem_cons_of_mem n hm))
    (List.mem_append_right pre (List.mem_cons_self _ _))
  have hre : receive_from mode pgpPresent decFail getFail fs (pre ++ n :: post) =
      ⟨(receiveLoop getFail fs (pre ++ n :: post) [] (pre ++ n :: post)).fs,
        (receiveLoop getFail fs (pre ++ n :: post) [] (pre ++ n :: post)).remote,
        none, some e⟩ := by
    simp only [receive_from]
    rw [h1]
  rw [hre]
  exact ⟨rfl, h2, h3, h4, h5, rfl⟩

/-- C5 counterexample: remote files `a.txt`, `b.txt`, `c.txt`, with the
download of `b.txt` failing.  The claim says the remaining downloads are
still attempted, but `c.txt` is never downloaded: no Awaiting copy of it
exists and it is still on the remote, while the already-downloaded
`a.txt` does remain in Awaiting. -/
theorem C5_counterexample :
    (receive_from "None" true none getFailC5 [] ["a.txt", "b.txt", "c.txt"]).error =
      some "boom" ∧
    (⟨"Awaiting", "c.txt"⟩ : QFile) ∉
      (receive_from "None" true none getFailC5 [] ["a.txt", "b.txt", "c.txt"]).fs ∧
    "c.txt" ∈ (receive_from "None" true none getFailC5 [] ["a.txt", "b.txt", "c.txt"]).remote ∧
    (⟨"Awaiting", "a.txt"⟩ : QFile) ∈
      (receive_from "None" true none getFailC5 [] ["a.txt", "b.txt", "c.txt"]).fs := by
  decide

/-- C5 witness: the amended theorem applied to the concrete three-file
scenario. -/
theorem C5_download_failure_aborts_witness :
    (receive_from "None" true none getFailC5 [] ["a.txt", "b.txt", "c.txt"]).error =
      some "boom" ∧
    "c.txt" ∈ (receive_from "None" true none getFailC5 [] ["a.txt", "b.txt", "c.txt"]).remote ∧
    (receive_from "None" true none getFailC5 [] ["a.txt", "b.txt", "c.txt"]).fs.length = 1 := by
  have h := C5_download_failure_aborts "None" true none getFailC5 []
    ["a.txt", "b.txt", "c.txt"] ["a.txt"] ["c.txt"] "b.txt" "boom" rfl
    (by
      intro m hm
      rw [List.mem_singleton] at hm
      subst hm
      rfl)
    rfl (by decide) (by decide)
  exact ⟨h.1, h.2.2.1 "c.txt" (List.mem_singleton.mpr rfl), h.2.2.2.2.1⟩

end SFTPMail
